import Mathlib

/-!
Verification development for the repository kvp1703/tools.

The repository holds two command-line utilities:
  * dir_diff_checker.py: walks two directory trees, classifies files as
    added / deleted / modified / identical / errors and renders reports.
  * youtube_transcript_extractor.py: resolves a video URL to an id,
    fetches a title and transcript, and writes a timestamped text file.

Strings are modelled as lists of characters (List Char); Python floats that
only ever flow into two-decimal formatting are modelled as rationals; the
filesystem and the network are modelled as explicit inputs.  Fallible
Python code that raises is modelled with Except carrying the message.
-/

namespace Tools

/-! ## Directory diff checker: data model

A file found by os.walk is recorded with the directory components below the
walked root, its base name, whether it is still accessible at comparison
time (os.path.exists succeeds when the comparison loop runs), and its byte
content.  A directory tree is the list of files the walk yields.
-/

structure FsEntry where
  dirs : List String
  name : String
  accessible : Bool
  content : List Nat
  deriving DecidableEq, Repr

structure DirTree where
  files : List FsEntry
  deriving DecidableEq, Repr

/-- Relative path of a walked file: os.path.relpath(os.path.join(root, f), dir_path),
with the POSIX separator. -/
def FsEntry.relPath (e : FsEntry) : String :=
  String.intercalate "/" (e.dirs ++ [e.name])

/-- The extension test of get_file_list.  Python: a file is skipped only when
extensions is truthy (a non-None, non-empty list) and no element is a suffix of
the file name; str.endswith is an exact, case-sensitive suffix test. -/
def extPass (extensions : Option (List String)) (name : String) : Bool :=
  match extensions with
  | none => true
  | some exts => exts.isEmpty || exts.any (fun ext => name.endsWith ext)

/-- get_file_list: relative paths of all walked files passing the extension
filter (the filter looks at the base name only). -/
def get_file_list (t : DirTree) (extensions : Option (List String)) : List String :=
  (t.files.filter (fun e => extPass extensions e.name)).map FsEntry.relPath

/-- Lookup of a path at comparison time: os.path.join(dir, file) resolves to the
walked entry with that relative path. -/
def findEntry (t : DirTree) (p : String) : Option FsEntry :=
  t.files.find? (fun e => e.relPath = p)

/-- os.path.exists plus full (shallow=False) content read: some content when the
path denotes an accessible file, none when it vanished or is not accessible. -/
def accessContent (t : DirTree) (p : String) : Option (List Nat) :=
  match findEntry t p with
  | some e => if e.accessible then some e.content else none
  | none => none

inductive FileClass where
  | identical
  | modified
  | fileError
  deriving DecidableEq, Repr

/-- The body of the common-file loop of compare_directories: both files exist
and filecmp.cmp(..., shallow=False) compares byte content; a missing or
inaccessible side lands in the error bucket. -/
def classifyCommon (t1 t2 : DirTree) (p : String) : FileClass :=
  match accessContent t1 p, accessContent t2 p with
  | some c1, some c2 => if c1 = c2 then .identical else .modified
  | _, _ => .fileError

/-- The message compare_directories records for a listed but inaccessible file. -/
def notAccessibleMsg : String := "File exists in listing but not accessible"

structure CompareResult where
  added : List String
  deleted : List String
  modified : List String
  identical : List String
  errors : List (String × String)
  deriving DecidableEq, Repr

/-- The de-duplicated path set of one tree, as compare_directories builds it
with set(get_file_list(...)). -/
def pathSet (t : DirTree) (extensions : Option (List String)) : Finset String :=
  (get_file_list t extensions).toFinset

/-- compare_directories.  The Python loop walks the common set in arbitrary
order and sorts every bucket afterwards, so each bucket is the sorted list of
the common paths with the matching classification; the error message is the
constant notAccessibleMsg, hence sorting the (path, message) pairs agrees with
sorting the paths. -/
def compare_directories (t1 t2 : DirTree) (extensions : Option (List String)) :
    CompareResult :=
  let files1 := pathSet t1 extensions
  let files2 := pathSet t2 extensions
  let common := files1 ∩ files2
  { added := (files2 \ files1).sort (· ≤ ·)
    deleted := (files1 \ files2).sort (· ≤ ·)
    modified := (common.filter (fun p => classifyCommon t1 t2 p = .modified)).sort (· ≤ ·)
    identical := (common.filter (fun p => classifyCommon t1 t2 p = .identical)).sort (· ≤ ·)
    errors := ((common.filter (fun p => classifyCommon t1 t2 p = .fileError)).sort (· ≤ ·)).map
      (fun p => (p, notAccessibleMsg)) }

/-- Paths of the error bucket. -/
def errorPaths (r : CompareResult) : List String := r.errors.map Prod.fst

theorem added_def (t1 t2 : DirTree) (e : Option (List String)) :
    (compare_directories t1 t2 e).added = (pathSet t2 e \ pathSet t1 e).sort (· ≤ ·) := rfl

theorem deleted_def (t1 t2 : DirTree) (e : Option (List String)) :
    (compare_directories t1 t2 e).deleted = (pathSet t1 e \ pathSet t2 e).sort (· ≤ ·) := rfl

theorem modified_def (t1 t2 : DirTree) (e : Option (List String)) :
    (compare_directories t1 t2 e).modified =
      ((pathSet t1 e ∩ pathSet t2 e).filter
        (fun p => classifyCommon t1 t2 p = .modified)).sort (· ≤ ·) := rfl

theorem identical_def (t1 t2 : DirTree) (e : Option (List String)) :
    (compare_directories t1 t2 e).identical =
      ((pathSet t1 e ∩ pathSet t2 e).filter
        (fun p => classifyCommon t1 t2 p = .identical)).sort (· ≤ ·) := rfl

theorem errors_def (t1 t2 : DirTree) (e : Option (List String)) :
    (compare_directories t1 t2 e).errors =
      (((pathSet t1 e ∩ pathSet t2 e).filter
        (fun p => classifyCommon t1 t2 p = .fileError)).sort (· ≤ ·)).map
        (fun p => (p, notAccessibleMsg)) := rfl

theorem errorPaths_eq (t1 t2 : DirTree) (e : Option (List String)) :
    errorPaths (compare_directories t1 t2 e) =
      ((pathSet t1 e ∩ pathSet t2 e).filter
        (fun p => classifyCommon t1 t2 p = .fileError)).sort (· ≤ ·) := by
  rw [errorPaths, errors_def, List.map_map]
  exact List.map_id _

/-! ## Claim theorems for compare_directories -/

/-- C1: for every pair of directory trees and optional extension filter,
compare_directories returns added = paths only in tree2, deleted = paths only
in tree1 (hence disjoint), the modified / identical / error buckets are
pairwise disjoint with union the intersection of the two path sets, and
added resp. deleted joined with the intersection give back the two path sets. -/
theorem C1_compare_directories_buckets (t1 t2 : DirTree) (exts : Option (List String)) :
    (compare_directories t1 t2 exts).added.toFinset = pathSet t2 exts \ pathSet t1 exts ∧
    (compare_directories t1 t2 exts).deleted.toFinset = pathSet t1 exts \ pathSet t2 exts ∧
    (compare_directories t1 t2 exts).added.toFinset ∩
      (compare_directories t1 t2 exts).deleted.toFinset = ∅ ∧
    (compare_directories t1 t2 exts).modified.toFinset ∩
      (compare_directories t1 t2 exts).identical.toFinset = ∅ ∧
    (compare_directories t1 t2 exts).modified.toFinset ∩
      (errorPaths (compare_directories t1 t2 exts)).toFinset = ∅ ∧
    (compare_directories t1 t2 exts).identical.toFinset ∩
      (errorPaths (compare_directories t1 t2 exts)).toFinset = ∅ ∧
    (compare_directories t1 t2 exts).modified.toFinset ∪
      (compare_directories t1 t2 exts).identical.toFinset ∪
      (errorPaths (compare_directories t1 t2 exts)).toFinset =
      pathSet t1 exts ∩ pathSet t2 exts ∧
    (compare_directories t1 t2 exts).added.toFinset ∪ (pathSet t1 exts ∩ pathSet t2 exts) =
      pathSet t2 exts ∧
    (compare_directories t1 t2 exts).deleted.toFinset ∪ (pathSet t1 exts ∩ pathSet t2 exts) =
      pathSet t1 exts := by
  rw [added_def, deleted_def, modified_def, identical_def, errorPaths_eq]
  simp only [Finset.sort_toFinset]
  refine ⟨trivial, trivial, ?_, ?_, ?_, ?_, ?_, ?_, ?_⟩
  · ext p; simp only [Finset.mem_inter, Finset.mem_sdiff, Finset.not_mem_empty, iff_false]
    tauto
  · ext p
    simp only [Finset.mem_inter, Finset.mem_filter, Finset.not_mem_empty, iff_false]
    rintro ⟨⟨-, hm⟩, ⟨-, hi⟩⟩
    rw [hm] at hi; exact FileClass.noConfusion hi
  · ext p
    simp only [Finset.mem_inter, Finset.mem_filter, Finset.not_mem_empty, iff_false]
    rintro ⟨⟨-, hm⟩, ⟨-, hi⟩⟩
    rw [hm] at hi; exact FileClass.noConfusion hi
  · ext p
    simp only [Finset.mem_inter, Finset.mem_filter, Finset.not_mem_empty, iff_false]
    rintro ⟨⟨-, hm⟩, ⟨-, hi⟩⟩
    rw [hm] at hi; exact FileClass.noConfusion hi
  · ext p
    simp only [Finset.mem_union, Finset.mem_filter]
    constructor
    · rintro ((⟨h, -⟩ | ⟨h, -⟩) | ⟨h, -⟩) <;> exact h
    · intro hp
      rcases hcl : classifyCommon t1 t2 p with _ | _ | _
      · exact Or.inl (Or.inr ⟨hp, rfl⟩)
      · exact Or.inl (Or.inl ⟨hp, rfl⟩)
      · exact Or.inr ⟨hp, rfl⟩
  · ext p
    simp only [Finset.mem_union, Finset.mem_sdiff, Finset.mem_inter]
    tauto
  · ext p
    simp only [Finset.mem_union, Finset.mem_sdiff, Finset.mem_inter]
    tauto

/-- C3: a common path whose two underlying files are accessible and byte-for-byte
equal is classified identical and not modified; a common path whose files are
accessible but differ somewhere is classified modified and not identical. -/
theorem C3_identical_vs_modified (t1 t2 : DirTree) (exts : Option (List String))
    (p : String) (c1 c2 : List Nat)
    (h1 : p ∈ get_file_list t1 exts) (h2 : p ∈ get_file_list t2 exts)
    (a1 : accessContent t1 p = some c1) (a2 : accessContent t2 p = some c2) :
    (c1 = c2 → p ∈ (compare_directories t1 t2 exts).identical ∧
      p ∉ (compare_directories t1 t2 exts).modified) ∧
    (c1 ≠ c2 → p ∈ (compare_directories t1 t2 exts).modified ∧
      p ∉ (compare_directories t1 t2 exts).identical) := by
  have hp : p ∈ pathSet t1 exts ∩ pathSet t2 exts := by
    simp only [pathSet, Finset.mem_inter, List.mem_toFinset]
    exact ⟨h1, h2⟩
  have hcl : classifyCommon t1 t2 p = (if c1 = c2 then .identical else .modified) := by
    simp [classifyCommon, a1, a2]
  constructor
  · intro he
    rw [he] at hcl
    simp only [if_pos rfl] at hcl
    constructor
    · simp [compare_directories, Finset.mem_sort, Finset.mem_filter, hp, hcl]
    · simp [compare_directories, Finset.mem_sort, Finset.mem_filter, hp, hcl]
  · intro hne
    rw [if_neg hne] at hcl
    constructor
    · simp [compare_directories, Finset.mem_sort, Finset.mem_filter, hp, hcl]
    · simp [compare_directories, Finset.mem_sort, Finset.mem_filter, hp, hcl]

/-- A one-file tree used to instantiate hypotheses of classification claims. -/
def sampleTreeA : DirTree := ⟨[⟨[], "a.txt", true, [1, 2]⟩]⟩

/-- A tree holding the same file with the same bytes. -/
def sampleTreeB : DirTree := ⟨[⟨[], "a.txt", true, [1, 2]⟩]⟩

/-- A tree holding the same file with one differing byte. -/
def sampleTreeC : DirTree := ⟨[⟨[], "a.txt", true, [1, 3]⟩]⟩

/-- Witness for C3 at concrete trees: equal bytes land in identical, a
differing byte lands in modified. -/
theorem C3_identical_vs_modified_witness :
    ("a.txt" ∈ get_file_list sampleTreeA none ∧
      accessContent sampleTreeA "a.txt" = some [1, 2]) ∧
    ("a.txt" ∈ (compare_directories sampleTreeA sampleTreeB none).identical ∧
      "a.txt" ∉ (compare_directories sampleTreeA sampleTreeB none).modified) ∧
    ("a.txt" ∈ (compare_directories sampleTreeA sampleTreeC none).modified ∧
      "a.txt" ∉ (compare_directories sampleTreeA sampleTreeC none).identical) := by
  refine ⟨⟨by decide, by decide⟩, ?_, ?_⟩
  · exact (C3_identical_vs_modified sampleTreeA sampleTreeB none "a.txt" [1, 2] [1, 2]
      (by decide) (by decide) (by decide) (by decide)).1 rfl
  · exact (C3_identical_vs_modified sampleTreeA sampleTreeC none "a.txt" [1, 2] [1, 3]
      (by decide) (by decide) (by decide) (by decide)).2 (by decide)

/-- Counterexample for C5: with a supplied but empty extension list, the code
includes every file (Python treats an empty list as falsy and skips the
filter), while the claimed iff would exclude a file whose name ends with none
of the zero supplied strings. -/
theorem C5_counterexample :
    "a.txt" ∈ get_file_list (⟨[⟨[], "a.txt", true, []⟩]⟩ : DirTree) (some []) ∧
    (([] : List String).any (fun ext => "a.txt".endsWith ext)) = false := by
  constructor
  · decide
  · rfl

/-- C5 amended: for every non-empty supplied extension list, a file is listed
iff it is a walked file whose base name ends with at least one of the supplied
strings (case-sensitive exact suffix); an empty supplied list disables
filtering entirely. -/
theorem C5_extension_filter (t : DirTree) (exts : List String) (hne : exts ≠ [])
    (p : String) :
    p ∈ get_file_list t (some exts) ↔
      ∃ e ∈ t.files, e.relPath = p ∧
        exts.any (fun ext => e.name.endsWith ext) = true := by
  simp only [get_file_list, List.mem_map, List.mem_filter, extPass]
  have hie : exts.isEmpty = false := by
    cases exts with
    | nil => exact absurd rfl hne
    | cons a l => rfl
  constructor
  · rintro ⟨e, ⟨hmem, hpass⟩, hrel⟩
    rw [hie, Bool.false_or] at hpass
    exact ⟨e, hmem, hrel, hpass⟩
  · rintro ⟨e, hmem, hrel, hany⟩
    exact ⟨e, ⟨hmem, by rw [hie, Bool.false_or]; exact hany⟩, hrel⟩

/-- Witness for C5 at a concrete tree and the non-empty list [".txt"]. -/
theorem C5_extension_filter_witness :
    ([".txt"] ≠ ([] : List String)) ∧
    ("a.txt" ∈ get_file_list sampleTreeA (some [".txt"]) ↔
      ∃ e ∈ sampleTreeA.files, e.relPath = "a.txt" ∧
        [".txt"].any (fun ext => e.name.endsWith ext) = true) := by
  refine ⟨by decide, ?_⟩
  exact C5_extension_filter sampleTreeA [".txt"] (by decide) "a.txt"

/-! ## Path helpers shared by both tools

os.path on a POSIX system: join discards the accumulated path when the next
component is absolute; dirname keeps everything before the last separator. -/

/-- posixpath.join for two components. -/
def posixJoin (a b : List Char) : List Char :=
  if b.head? = some '/' then b
  else if a.isEmpty then b
  else if a.getLast? = some '/' then a ++ b
  else a ++ '/' :: b

/-- posixpath.dirname: the part before the last separator, with trailing
separators stripped unless the head is entirely separators. -/
def posixDirname (p : List Char) : List Char :=
  let head := ((p.reverse).dropWhile (fun c => c ≠ '/')).reverse
  if head.isEmpty || head.all (fun c => c = '/') then head
  else (head.reverse.dropWhile (fun c => c = '/')).reverse

/-! ## HTML report: per-file diff naming (generate_html_report) -/

/-- Python str.replace with a one-character pattern replaces every occurrence
of that character. -/
def pyReplaceChar (old new : Char) (cs : List Char) : List Char :=
  cs.map (fun c => if c = old then new else c)

/-- file_id of generate_html_report:
file.replace('/', '_').replace('\\', '_').replace('.', '_').replace(' ', '_'). -/
def fileId (file : List Char) : List Char :=
  pyReplaceChar ' ' '_' (pyReplaceChar '.' '_' (pyReplaceChar '\\' '_'
    (pyReplaceChar '/' '_' file)))

/-- The diffs directory: next to the report when an output path is given
(Python truthiness: an empty output path counts as absent), else ./diffs. -/
def diffDir (outputPath : Option (List Char)) : List Char :=
  match outputPath with
  | some op => if op.isEmpty then "diffs".toList else posixJoin (posixDirname op) ("diffs".toList)
  | none => "diffs".toList

/-- Full path of the diff file written for one modified relative path. -/
def diffFilePath (outputPath : Option (List Char)) (file : List Char) : List Char :=
  posixJoin (diffDir outputPath) (fileId file ++ (".html".toList))

/-- The naming C9 claims: only path separators and dots become underscores. -/
def specFileId (file : List Char) : List Char :=
  file.map (fun c => if c = '/' || c = '\\' || c = '.' then '_' else c)

/-- Counterexample for C9: the code also turns spaces into underscores, so a
path with a space gets a name the claimed separator-and-dot rule does not
produce. -/
theorem C9_counterexample :
    fileId ("a b.txt".toList) = "a_b_txt".toList ∧
    specFileId ("a b.txt".toList) = "a b_txt".toList ∧
    fileId ("a b.txt".toList) ≠ specFileId ("a b.txt".toList) := by
  refine ⟨rfl, rfl, by decide⟩

/-- C9 amended: the diff file for a modified path p is placed in the diffs
directory under the name obtained from p by replacing path separators, dots,
and spaces with underscores (one independent character map), plus .html. -/
theorem C9_diff_file_name (out : Option (List Char)) (p : List Char) :
    diffFilePath out p =
      posixJoin (diffDir out)
        ((p.map (fun c =>
          if c = '/' || c = '\\' || c = '.' || c = ' ' then '_' else c)) ++ (".html".toList)) := by
  unfold diffFilePath fileId pyReplaceChar
  rw [List.map_map, List.map_map, List.map_map]
  refine congrArg _ (congrArg (fun l => l ++ (".html".toList)) ?_)
  refine List.map_congr_left (fun c _ => ?_)
  by_cases h1 : c = '/'
  · subst h1; rfl
  · by_cases h2 : c = '\\'
    · subst h2; rfl
    · by_cases h3 : c = '.'
      · subst h3; rfl
      · by_cases h4 : c = ' '
        · subst h4; rfl
        · simp [Function.comp, h1, h2, h3, h4]

/-- C10: the diff-file naming is not injective: the distinct relative paths
a/b.txt and a.b/txt produce the same file_id, hence the same diff file path,
so the second write lands on the first file. -/
theorem C10_diff_name_collision :
    fileId ("a/b.txt".toList) = fileId ("a.b/txt".toList) ∧
    ("a/b.txt".toList) ≠ ("a.b/txt".toList) ∧
    diffFilePath none ("a/b.txt".toList) = diffFilePath none ("a.b/txt".toList) := by
  refine ⟨rfl, by decide, rfl⟩

/-! ## Transcript extractor: output path (main) -/

/-- One character of re.sub applied with the class of forbidden name
characters. -/
def sanitizeChar (c : Char) : Char :=
  if c = '\\' || c = '/' || c = '*' || c = '?' || c = ':' || c = '"' ||
      c = '<' || c = '>' || c = '|' then '_' else c

/-- safe_title = re.sub applied to the fetched title. -/
def sanitizeChars (t : List Char) : List Char := t.map sanitizeChar

/-- Default output file name of main. -/
def defaultOutputName (safeTitle vid : List Char) : List Char :=
  safeTitle ++ '_' :: (vid ++ ("_transcript.txt".toList))

/-- args.output or default_name; Python or-chaining treats an empty string as
absent. -/
def chosenOutputName (output : Option (List Char)) (safeTitle vid : List Char) : List Char :=
  match output with
  | some s => if s.isEmpty then defaultOutputName safeTitle vid else s
  | none => defaultOutputName safeTitle vid

/-- output_path = os.path.join("transcripts", output_filename). -/
def transcriptOutputPath (output : Option (List Char)) (safeTitle vid : List Char) :
    List Char :=
  posixJoin ("transcripts".toList) (chosenOutputName output safeTitle vid)

/-- Counterexample for C6: an absolute -o value makes os.path.join discard the
transcripts component, so the file does not land under transcripts/. -/
theorem C6_counterexample :
    transcriptOutputPath (some ("/tmp/x.txt".toList)) ("T".toList) ("dQw4w9WgXcQ".toList) =
      "/tmp/x.txt".toList ∧
    ("transcripts/".toList).isPrefixOf ("/tmp/x.txt".toList) = false := by
  refine ⟨rfl, rfl⟩

theorem sanitizeChar_ne_slash (c : Char) : sanitizeChar c ≠ '/' := by
  unfold sanitizeChar
  split_ifs with h
  · decide
  · intro he
    subst he
    simp at h

theorem chosenOutputName_head (output : Option (List Char)) (title vid : List Char)
    (habs : ∀ s, output = some s → s.head? ≠ some '/') :
    (chosenOutputName output (sanitizeChars title) vid).head? ≠ some '/' := by
  have hdef : (defaultOutputName (sanitizeChars title) vid).head? ≠ some '/' := by
    cases title with
    | nil =>
      simp only [sanitizeChars, List.map_nil, defaultOutputName, List.nil_append,
        List.head?_cons]
      decide
    | cons c rest =>
      simp only [defaultOutputName, sanitizeChars, List.map_cons, List.cons_append,
        List.head?_cons]
      intro h
      exact sanitizeChar_ne_slash c (Option.some.inj h)
  cases output with
  | none => exact hdef
  | some s =>
    simp only [chosenOutputName]
    by_cases hs : s.isEmpty
    · rw [if_pos hs]; exact hdef
    · rw [if_neg hs]; exact habs s rfl

theorem posixJoin_transcripts (b : List Char) (hb : b.head? ≠ some '/') :
    posixJoin ("transcripts".toList) b = "transcripts/".toList ++ b := by
  unfold posixJoin
  rw [if_neg hb, if_neg (by decide), if_neg (by decide)]
  rfl

/-- C6 amended: whenever the -o value is absent, empty, or a non-absolute
path, the transcript path produced by main starts with the transcripts/
prefix; an absolute -o value escapes it. -/
theorem C6_output_under_transcripts (output : Option (List Char)) (title vid : List Char)
    (habs : ∀ s, output = some s → s.head? ≠ some '/') :
    ("transcripts/".toList).isPrefixOf
      (transcriptOutputPath output (sanitizeChars title) vid) = true := by
  rw [transcriptOutputPath,
    posixJoin_transcripts _ (chosenOutputName_head output title vid habs)]
  rw [List.isPrefixOf_iff_prefix]
  exact List.prefix_append _ _

/-- Witness for C6 at a concrete relative -o value. -/
theorem C6_output_under_transcripts_witness :
    ((some ("notes.txt".toList) : Option (List Char)) = some ("notes.txt".toList) →
      ("notes.txt".toList).head? ≠ some '/') ∧
    ("transcripts/".toList).isPrefixOf
      (transcriptOutputPath (some ("notes.txt".toList))
        (sanitizeChars ("My Video".toList)) ("dQw4w9WgXcQ".toList)) = true := by
  refine ⟨fun _ => by decide, ?_⟩
  exact C6_output_under_transcripts (some ("notes.txt".toList)) ("My Video".toList)
    ("dQw4w9WgXcQ".toList) (fun s hs => by cases hs; decide)

/-! ## Text and HTML diff (show_file_diff, generate_html_diff)

Reading a file and the difflib routines live outside the repository: they are
passed in as explicit inputs.  A read (open/readlines) either yields the list
of lines or fails with a message; the diff routines are likewise allowed to
fail, which the Python code intercepts with its blanket except clause. -/

/-- The filesystem as seen by open(..., errors="replace"): path to lines. -/
abbrev ReadFs := List Char → Except (List Char) (List (List Char))

/-- difflib.unified_diff as a library input. -/
abbrev UDiff := List (List Char) → List (List Char) → List Char → List Char →
  Except (List Char) (List (List Char))

/-- difflib.HtmlDiff(...).make_file as a library input. -/
abbrev HDiff := List (List Char) → List (List Char) → List Char → List Char →
  Except (List Char) (List Char)

/-- html.escape with its default quote=True. -/
def htmlEscapeChar (c : Char) : List Char :=
  if c = '&' then "&amp;".toList
  else if c = '<' then "&lt;".toList
  else if c = '>' then "&gt;".toList
  else if c = '"' then "&quot;".toList
  else if c = '\'' then "&#x27;".toList
  else [c]

def htmlEscape (cs : List Char) : List Char :=
  cs.foldr (fun c acc => htmlEscapeChar c ++ acc) []

/-- Python str.replace for a non-empty pattern: replace every non-overlapping
occurrence, scanning left to right.  The code never calls replace with an
empty pattern; the guard keeps the function total. -/
def replaceSub (pat rep : List Char) (cs : List Char) : List Char :=
  if pat.isEmpty then cs
  else
    match cs with
    | [] => []
    | c :: rest =>
      if pat.isPrefixOf (c :: rest) then
        rep ++ replaceSub pat rep ((c :: rest).drop pat.length)
      else c :: replaceSub pat rep rest
termination_by cs.length
decreasing_by
  · simp only [List.length_drop, List.length_cons]
    have : pat.length ≠ 0 := by
      intro h0
      exact absurd (List.isEmpty_iff_length_eq_zero.mpr h0) (by simp_all)
    omega
  · simp

/-- show_file_diff: read both files, join the unified diff with newlines; any
failure becomes an error string instead of an exception. -/
def show_file_diff (fs : ReadFs) (udiff : UDiff) (file1 file2 : List Char) : List Char :=
  match fs file1 with
  | .error e => "Error generating diff: ".toList ++ e
  | .ok content1 =>
    match fs file2 with
    | .error e => "Error generating diff: ".toList ++ e
    | .ok content2 =>
      match udiff content1 content2 file1 file2 with
      | .error e => "Error generating diff: ".toList ++ e
      | .ok diff => List.intercalate ['\n'] diff

/-- The stylesheet generate_html_diff splices in before the closing style
tag (the replacement text for the replace call on the html diff). -/
def cssReplacement : String := String.intercalate "\n" [
  "",
  "            body \x7b",
  "                font-family: -apple-system, BlinkMacSystemFont, \"Segoe UI\", Helvetica, Arial, sans-serif;",
  "                font-size: 14px;",
  "                line-height: 1.5;",
  "                color: #24292e;",
  "                background-color: #fff;",
  "            \x7d",
  "            .diff-header \x7b",
  "                padding: 10px 16px;",
  "                background-color: #f6f8fa;",
  "                border-bottom: 1px solid #d1d5da;",
  "                font-weight: 600;",
  "                position: sticky;",
  "                top: 0;",
  "                z-index: 100;",
  "                box-shadow: 0 1px 2px rgba(0,0,0,0.075);",
  "            \x7d",
  "            .diff-container \x7b",
  "                margin-bottom: 30px;",
  "                border: 1px solid #e1e4e8;",
  "                border-radius: 6px;",
  "                overflow: hidden;",
  "            \x7d",
  "            table.diff \x7b",
  "                width: 100%;",
  "                font-family: SFMono-Regular, Consolas, \"Liberation Mono\", Menlo, monospace;",
  "                font-size: 12px;",
  "                border-collapse: collapse;",
  "                table-layout: fixed;",
  "            \x7d",
  "            .diff tbody \x7b",
  "                font-family: SFMono-Regular, Consolas, \"Liberation Mono\", Menlo, monospace;",
  "            \x7d",
  "            .diff_header \x7b",
  "                background-color: #f6f8fa !important;",
  "                padding: 4px 10px !important;",
  "                border-right: 1px solid #e1e4e8;",
  "                color: #586069;",
  "                text-align: right;",
  "                vertical-align: top;",
  "                font-size: 12px;",
  "            \x7d",
  "            td \x7b",
  "                padding: 0 10px;",
  "                vertical-align: top;",
  "                white-space: pre-wrap;",
  "                word-wrap: break-word;",
  "                border-right: 1px solid #eaecef;",
  "                line-height: 20px;",
  "            \x7d",
  "            .diff_add \x7b",
  "                background-color: #e6ffec !important;",
  "                border-color: #34d058;",
  "            \x7d",
  "            .diff_chg \x7b",
  "                background-color: #fff5b1 !important;",
  "                border-color: #f9c513;",
  "            \x7d",
  "            .diff_sub \x7b",
  "                background-color: #ffeef0 !important;",
  "                border-color: #d73a49;",
  "            \x7d",
  "            tr.diff_add \x7b",
  "                background-color: #e6ffec;",
  "            \x7d",
  "            tr.diff_chg \x7b",
  "                background-color: #fff5b1;",
  "            \x7d",
  "            tr.diff_sub \x7b",
  "                background-color: #ffeef0;",
  "            \x7d",
  "            tr:hover \x7b",
  "                background-color: rgba(0,0,0,0.02);",
  "            \x7d",
  "            .diff td:nth-of-type(3), .diff td:nth-of-type(4) \x7b",
  "                width: 45%;",
  "            \x7d",
  "            </style>"]

/-- The header banner generate_html_diff splices in after the opening body
tag, naming the compared file with its escaped relative path. -/
def htmlHeaderFor (filePath : List Char) : List Char :=
  ("<body>\n            <div class=\"diff-header\">\n                <h3>Diff of ".toList) ++
    htmlEscape filePath ++
    ("</h3>\n            </div>\n            <div class=\"diff-container\">".toList)

/-- The error page of generate_html_diff. -/
def errorHtmlPage (e : List Char) : List Char :=
  ("<html><body><h2>Error generating diff</h2><p>".toList) ++ htmlEscape e ++
    ("</p></body></html>".toList)

/-- generate_html_diff: read both files, render the side-by-side HTML diff,
splice in the stylesheet and the header; any failure yields the error page. -/
def generate_html_diff (fs : ReadFs) (makeFile : HDiff)
    (file1 file2 filePath : List Char) : List Char :=
  match fs file1 with
  | .error e => errorHtmlPage e
  | .ok content1 =>
    match fs file2 with
    | .error e => errorHtmlPage e
    | .ok content2 =>
      match makeFile content1 content2 (("Original: ".toList) ++ file1)
          (("Modified: ".toList) ++ file2) with
      | .error e => errorHtmlPage e
      | .ok diffHtml =>
        replaceSub ("</body>".toList) ("</div></body>".toList)
          (replaceSub ("<body>".toList) (htmlHeaderFor filePath)
            (replaceSub ("</style>".toList) (cssReplacement.toList) diffHtml))

/-- C7: show_file_diff and generate_html_diff are total functions of the read
and diff results: every read or diff failure is turned into the documented
error string resp. the HTML error page with the escaped message, and the
success path returns the joined resp. post-processed diff; nothing
propagates. -/
theorem C7_total_error_handling (fs : ReadFs) (udiff : UDiff) (makeFile : HDiff)
    (f1 f2 fp e : List Char) (c1 c2 d : List (List Char)) (h : List Char) :
    (fs f1 = .error e →
      show_file_diff fs udiff f1 f2 = ("Error generating diff: ".toList) ++ e) ∧
    (fs f1 = .ok c1 → fs f2 = .error e →
      show_file_diff fs udiff f1 f2 = ("Error generating diff: ".toList) ++ e) ∧
    (fs f1 = .ok c1 → fs f2 = .ok c2 → udiff c1 c2 f1 f2 = .error e →
      show_file_diff fs udiff f1 f2 = ("Error generating diff: ".toList) ++ e) ∧
    (fs f1 = .ok c1 → fs f2 = .ok c2 → udiff c1 c2 f1 f2 = .ok d →
      show_file_diff fs udiff f1 f2 = List.intercalate ['\n'] d) ∧
    (fs f1 = .error e → generate_html_diff fs makeFile f1 f2 fp = errorHtmlPage e) ∧
    (fs f1 = .ok c1 → fs f2 = .error e →
      generate_html_diff fs makeFile f1 f2 fp = errorHtmlPage e) ∧
    (fs f1 = .ok c1 → fs f2 = .ok c2 →
      makeFile c1 c2 (("Original: ".toList) ++ f1) (("Modified: ".toList) ++ f2) = .error e →
      generate_html_diff fs makeFile f1 f2 fp = errorHtmlPage e) ∧
    (fs f1 = .ok c1 → fs f2 = .ok c2 →
      makeFile c1 c2 (("Original: ".toList) ++ f1) (("Modified: ".toList) ++ f2) = .ok h →
      generate_html_diff fs makeFile f1 f2 fp =
        replaceSub ("</body>".toList) ("</div></body>".toList)
          (replaceSub ("<body>".toList) (htmlHeaderFor fp)
            (replaceSub ("</style>".toList) (cssReplacement.toList) h))) := by
  refine ⟨?_, ?_, ?_, ?_, ?_, ?_, ?_, ?_⟩
  · intro h1; simp [show_file_diff, h1]
  · intro h1 h2; simp [show_file_diff, h1, h2]
  · intro h1 h2 h3; simp [show_file_diff, h1, h2, h3]
  · intro h1 h2 h3; simp [show_file_diff, h1, h2, h3]
  · intro h1; simp [generate_html_diff, h1]
  · intro h1 h2; simp [generate_html_diff, h1, h2]
  · intro h1 h2 h3
    simp at h3
    simp [generate_html_diff, h1, h2, h3]
  · intro h1 h2 h3
    simp at h3
    simp [generate_html_diff, h1, h2, h3]

/-- Witness for C7: a failing read produces the documented strings, a failing
diff routine produces them too, and a successful run joins the diff lines. -/
theorem C7_total_error_handling_witness :
    show_file_diff (fun _ => .error ("boom".toList)) (fun _ _ _ _ => .ok [])
      ("a".toList) ("b".toList) = ("Error generating diff: ".toList) ++ ("boom".toList) ∧
    generate_html_diff (fun _ => .error ("boom".toList)) (fun _ _ _ _ => .ok [])
      ("a".toList) ("b".toList) ("p".toList) = errorHtmlPage ("boom".toList) ∧
    show_file_diff (fun _ => .ok []) (fun _ _ _ _ => .error ("bad".toList))
      ("a".toList) ("b".toList) = ("Error generating diff: ".toList) ++ ("bad".toList) ∧
    show_file_diff (fun _ => .ok []) (fun _ _ _ _ => .ok [("x".toList)])
      ("a".toList) ("b".toList) = List.intercalate ['\n'] [("x".toList)] := by
  refine ⟨?_, ?_, ?_, ?_⟩
  · exact (C7_total_error_handling (fun _ => .error ("boom".toList)) (fun _ _ _ _ => .ok [])
      (fun _ _ _ _ => .ok []) ("a".toList) ("b".toList) ("p".toList) ("boom".toList)
      [] [] [] []).1 rfl
  · exact (C7_total_error_handling (fun _ => .error ("boom".toList)) (fun _ _ _ _ => .ok [])
      (fun _ _ _ _ => .ok []) ("a".toList) ("b".toList) ("p".toList) ("boom".toList)
      [] [] [] []).2.2.2.2.1 rfl
  · exact (C7_total_error_handling (fun _ => .ok []) (fun _ _ _ _ => .error ("bad".toList))
      (fun _ _ _ _ => .ok []) ("a".toList) ("b".toList) ("p".toList) ("bad".toList)
      [] [] [] []).2.2.1 rfl rfl rfl
  · exact (C7_total_error_handling (fun _ => .ok []) (fun _ _ _ _ => .ok [("x".toList)])
      (fun _ _ _ _ => .ok []) ("a".toList) ("b".toList) ("p".toList) []
      [] [] [("x".toList)] []).2.2.2.1 rfl rfl rfl

/-! ## Video id extraction (extract_video_id)

The Python code runs re.search with (?:v=|\/)([0-9A-Za-z_-]\x7b11\x7d)(?:\?|&|#|$)
and returns group 1.  re.search tries each start position from the left; at a
position the alternation first matches the literal v=, then a slash, then the
group takes exactly eleven id characters, and the final alternation accepts
a question mark, ampersand, hash, or the $ anchor, which in Python also
matches just before a single trailing newline. -/

/-- The character class [0-9A-Za-z_-]. -/
def idChar (c : Char) : Bool := c.isAlphanum || c = '_' || c = '-'

/-- Take exactly k id characters, returning them with the remainder. -/
def takeId : Nat → List Char → Option (List Char × List Char)
  | 0, rest => some ([], rest)
  | _ + 1, [] => none
  | n + 1, c :: cs =>
    if idChar c then (takeId n cs).map (fun pr => (c :: pr.1, pr.2)) else none

/-- The closing alternation (?:\?|&|#|$) of the pattern, with the Python
semantics of $: end of input or just before a terminal newline. -/
def delimEnd : List Char → Bool
  | [] => true
  | [c] => c = '?' || c = '&' || c = '#' || c = '\n'
  | c :: _ :: _ => c = '?' || c = '&' || c = '#'

/-- After the v= or / anchor: eleven id characters, then a delimiter. -/
def matchFrom (rest : List Char) : Option (List Char) :=
  match takeId 11 rest with
  | some (tok, after) => if delimEnd after then some tok else none
  | none => none

/-- One regex attempt at a fixed start position: the v= alternative first,
then the slash alternative. -/
def matchAt (cs : List Char) : Option (List Char) :=
  if cs.take 2 = ['v', '='] then matchFrom (cs.drop 2)
  else if cs.take 1 = ['/'] then matchFrom (cs.drop 1)
  else none

/-- re.search: the first start position, scanning from the left, at which the
pattern matches. -/
def reSearch : List Char → Option (List Char)
  | [] => none
  | c :: cs =>
    match matchAt (c :: cs) with
    | some t => some t
    | none => reSearch cs

/-- The ValueError message of extract_video_id. -/
def errMsg (url : List Char) : List Char :=
  ("Invalid YouTube URL or missing video ID: ".toList) ++ url

/-- extract_video_id: the matched group, or ValueError when nothing matches. -/
def extract_video_id (url : List Char) : Except (List Char) (List Char) :=
  match reSearch url with
  | some t => .ok t
  | none => .error (errMsg url)

/-! Spec-side token predicates, worded as the claim words them: a token
occurrence immediately preceded by v= or a slash and immediately followed by
an accepted delimiter. -/

/-- The delimiters the claim names: question mark, ampersand, hash, or end of
string (without the trailing-newline case of the Python $ anchor). -/
def specDelim : List Char → Bool
  | [] => true
  | c :: _ => c = '?' || c = '&' || c = '#'

/-- t occurs at the very start of cs, preceded by v= or /, followed by an
accepted delimiter. -/
def specTokenAt (delim : List Char → Bool) (cs t : List Char) : Prop :=
  (cs.take 2 = ['v', '='] ∧ (cs.drop 2).take 11 = t ∧ delim ((cs.drop 2).drop 11) = true) ∨
  (cs.take 1 = ['/'] ∧ (cs.drop 1).take 11 = t ∧ delim ((cs.drop 1).drop 11) = true)

/-- t occurs somewhere in s with the required context. -/
def specTokenIn (delim : List Char → Bool) (s t : List Char) : Prop :=
  ∃ n, specTokenAt delim (s.drop n) t

/-- The claim predicate: an 11-character token over the id alphabet occurring
in s with the required context. -/
def specToken (delim : List Char → Bool) (s t : List Char) : Prop :=
  t.length = 11 ∧ (∀ c ∈ t, idChar c = true) ∧ specTokenIn delim s t

theorem takeId_sound (k : Nat) :
    ∀ (rest t after : List Char), takeId k rest = some (t, after) →
      t = rest.take k ∧ after = rest.drop k ∧ t.length = k ∧ ∀ c ∈ t, idChar c = true := by
  induction k with
  | zero =>
    intro rest t after h
    simp only [takeId, Option.some_inj, Prod.mk.injEq] at h
    obtain ⟨ht, ha⟩ := h
    subst ht; subst ha
    simp
  | succ n ih =>
    intro rest t after h
    cases rest with
    | nil => exact absurd h (by simp [takeId])
    | cons c cs =>
      simp only [takeId] at h
      by_cases hc : idChar c
      · rw [if_pos hc, Option.map_eq_some'] at h
        obtain ⟨⟨t', a'⟩, hrec, heq⟩ := h
        simp only [Prod.mk.injEq] at heq
        obtain ⟨ht, ha⟩ := heq
        obtain ⟨ht1, ha1, hl, hall⟩ := ih cs t' a' hrec
        subst ht; subst ha
        refine ⟨by rw [List.take_succ_cons, ht1], by rw [List.drop_succ_cons, ha1], by simp [hl], ?_⟩
        intro x hx
        rcases List.mem_cons.mp hx with hx | hx
        · subst hx; exact hc
        · exact hall x hx
      · rw [if_neg hc] at h
        exact absurd h (by simp)

theorem takeId_complete (k : Nat) :
    ∀ (rest t : List Char), rest.take k = t → t.length = k →
      (∀ c ∈ t, idChar c = true) → takeId k rest = some (t, rest.drop k) := by
  induction k with
  | zero =>
    intro rest t htake hlen _
    rw [List.length_eq_zero] at hlen
    subst hlen
    simp [takeId]
  | succ n ih =>
    intro rest t htake hlen hall
    cases rest with
    | nil =>
      rw [List.take_nil] at htake
      subst htake
      simp at hlen
    | cons c cs =>
      rw [List.take_succ_cons] at htake
      subst htake
      have hc : idChar c = true := hall c (List.mem_cons_self c _)
      simp only [takeId, if_pos hc]
      rw [ih cs (cs.take n) rfl (by simpa using hlen) (fun x hx => hall x (List.mem_cons_of_mem c hx))]
      simp

theorem matchFrom_sound (rest t : List Char) (h : matchFrom rest = some t) :
    rest.take 11 = t ∧ delimEnd (rest.drop 11) = true ∧ t.length = 11 ∧
      ∀ c ∈ t, idChar c = true := by
  rcases htake : takeId 11 rest with - | ⟨tok, after⟩
  · simp only [matchFrom, htake] at h
    exact absurd h (by simp)
  · simp only [matchFrom, htake] at h
    by_cases hd : delimEnd after = true
    · rw [if_pos hd, Option.some_inj] at h
      subst h
      obtain ⟨h1, h2, h3, h4⟩ := takeId_sound 11 rest tok after htake
      exact ⟨h1.symm, by rw [← h2]; exact hd, h3, h4⟩
    · rw [if_neg hd] at h
      exact absurd h (by simp)

theorem matchFrom_complete (rest t : List Char) (htake : rest.take 11 = t)
    (hlen : t.length = 11) (hall : ∀ c ∈ t, idChar c = true)
    (hd : delimEnd (rest.drop 11) = true) : matchFrom rest = some t := by
  simp only [matchFrom, takeId_complete 11 rest t htake hlen hall]
  rw [if_pos hd]

theorem matchAt_sound (cs t : List Char) (h : matchAt cs = some t) :
    specTokenAt delimEnd cs t ∧ t.length = 11 ∧ ∀ c ∈ t, idChar c = true := by
  unfold matchAt at h
  by_cases h2 : cs.take 2 = ['v', '=']
  · rw [if_pos h2] at h
    obtain ⟨a, b, c, d⟩ := matchFrom_sound _ _ h
    exact ⟨Or.inl ⟨h2, a, b⟩, c, d⟩
  · rw [if_neg h2] at h
    by_cases h1 : cs.take 1 = ['/']
    · rw [if_pos h1] at h
      obtain ⟨a, b, c, d⟩ := matchFrom_sound _ _ h
      exact ⟨Or.inr ⟨h1, a, b⟩, c, d⟩
    · rw [if_neg h1] at h
      exact absurd h (by simp)

theorem matchAt_complete (cs t : List Char) (hat : specTokenAt delimEnd cs t)
    (hlen : t.length = 11) (hall : ∀ c ∈ t, idChar c = true) : matchAt cs = some t := by
  unfold matchAt
  rcases hat with ⟨h2, htake, hd⟩ | ⟨h1, htake, hd⟩
  · rw [if_pos h2]
    exact matchFrom_complete _ _ htake hlen hall hd
  · have hne : ¬ cs.take 2 = ['v', '='] := by
      intro h2
      have : cs.take 1 = ['v'] := by
        have := congrArg (fun l => List.take 1 l) h2
        simpa [List.take_take] using this
      rw [h1] at this
      exact absurd this (by decide)
    rw [if_neg hne, if_pos h1]
    exact matchFrom_complete _ _ htake hlen hall hd

theorem reSearch_sound (s t : List Char) (h : reSearch s = some t) :
    ∃ n, matchAt (s.drop n) = some t := by
  induction s with
  | nil => exact absurd h (by simp [reSearch])
  | cons c cs ih =>
    rw [reSearch] at h
    rcases hm : matchAt (c :: cs) with - | t'
    · rw [hm] at h
      obtain ⟨n, hn⟩ := ih h
      exact ⟨n + 1, by simpa using hn⟩
    · rw [hm, Option.some_inj] at h
      subst h
      exact ⟨0, hm⟩

theorem reSearch_complete (s : List Char) :
    ∀ (n : Nat) (t : List Char), matchAt (s.drop n) = some t →
      ∃ u, reSearch s = some u := by
  induction s with
  | nil =>
    intro n t h
    rw [List.drop_nil] at h
    simp [matchAt] at h
  | cons c cs ih =>
    intro n t h
    rcases hm : matchAt (c :: cs) with - | t'
    · cases n with
      | zero => rw [List.drop_zero] at h; rw [hm] at h; exact absurd h (by simp)
      | succ k =>
        rw [List.drop_succ_cons] at h
        obtain ⟨u, hu⟩ := ih k t h
        exact ⟨u, by simp [reSearch, hm, hu]⟩
    · exact ⟨t', by simp [reSearch, hm]⟩

/-- Counterexample for C2, at two concrete inputs.  First, the string
/aaaaaaaaaaa?/bbbbbbbbbbb? contains the token bbbbbbbbbbb in the claimed
context, yet extract_video_id returns the leftmost token aaaaaaaaaaa, not
that exact token.  Second, /abcdefghijk followed by one newline contains no
token in the claimed context (the newline is none of the claimed delimiters
and not end of string), yet extract_video_id succeeds because the $ anchor
of the Python pattern matches before a trailing newline. -/
theorem C2_counterexample :
    specToken specDelim ("/aaaaaaaaaaa?/bbbbbbbbbbb?".toList) ("bbbbbbbbbbb".toList) ∧
    extract_video_id ("/aaaaaaaaaaa?/bbbbbbbbbbb?".toList) = .ok ("aaaaaaaaaaa".toList) ∧
    ("aaaaaaaaaaa".toList) ≠ ("bbbbbbbbbbb".toList) ∧
    (∀ t, ¬ specToken specDelim ("/abcdefghijk\n".toList) t) ∧
    extract_video_id ("/abcdefghijk\n".toList) = .ok ("abcdefghijk".toList) := by
  refine ⟨⟨by decide, by decide, 13, Or.inr ⟨by decide, by decide, by decide⟩⟩, rfl,
    by decide, ?_, rfl⟩
  rintro t ⟨-, -, n, hat⟩
  by_cases hn : 13 ≤ n
  · rw [List.drop_eq_nil_of_le (by simpa using hn)] at hat
    rcases hat with ⟨h1, -, -⟩ | ⟨h1, -, -⟩ <;> exact absurd h1 (by decide)
  · have hn12 : n ≤ 12 := by omega
    interval_cases n <;>
      (rcases hat with ⟨h1, -, h3⟩ | ⟨h1, -, h3⟩ <;>
        first
        | exact absurd h1 (by decide)
        | exact absurd h3 (by decide))

/-- C2 amended: whenever extract_video_id succeeds, the returned string is an
11-character token over [0-9A-Za-z_-] preceded by v= or / and followed by ?,
&, #, end of string, or a terminal newline (it is the token of the leftmost
match); whenever such a token exists the function succeeds; when no such
token exists the function fails with the invalid-URL ValueError; and on the
scenario URL it returns dQw4w9WgXcQ. -/
theorem C2_extract_video_id (s t : List Char) :
    (extract_video_id s = .ok t → specToken delimEnd s t) ∧
    (specToken delimEnd s t → ∃ u, extract_video_id s = .ok u) ∧
    ((∀ u, ¬ specToken delimEnd s u) → extract_video_id s = .error (errMsg s)) ∧
    extract_video_id ("https://youtu.be/dQw4w9WgXcQ?si=abc".toList) =
      .ok ("dQw4w9WgXcQ".toList) := by
  have sound : ∀ u, reSearch s = some u → specToken delimEnd s u := by
    intro u hu
    obtain ⟨n, hn⟩ := reSearch_sound s u hu
    obtain ⟨hat, hlen, hall⟩ := matchAt_sound _ _ hn
    exact ⟨hlen, hall, n, hat⟩
  refine ⟨?_, ?_, ?_, rfl⟩
  · intro h
    rcases hr : reSearch s with - | u
    · simp only [extract_video_id, hr] at h
      exact absurd h (by simp)
    · simp only [extract_video_id, hr, Except.ok.injEq] at h
      subst h
      exact sound _ hr
  · rintro ⟨hlen, hall, n, hat⟩
    obtain ⟨u, hu⟩ := reSearch_complete s n t (matchAt_complete _ _ hat hlen hall)
    exact ⟨u, by simp [extract_video_id, hu]⟩
  · intro hno
    rcases hr : reSearch s with - | u
    · simp [extract_video_id, hr]
    · exact absurd (sound u hr) (hno u)

/-- Witness for C2 at the scenario URL: the extraction succeeds with
dQw4w9WgXcQ and the returned token has the claimed shape. -/
theorem C2_extract_video_id_witness :
    extract_video_id ("https://youtu.be/dQw4w9WgXcQ?si=abc".toList) =
      .ok ("dQw4w9WgXcQ".toList) ∧
    specToken delimEnd ("https://youtu.be/dQw4w9WgXcQ?si=abc".toList)
      ("dQw4w9WgXcQ".toList) := by
  refine ⟨rfl, ?_⟩
  exact (C2_extract_video_id ("https://youtu.be/dQw4w9WgXcQ?si=abc".toList)
    ("dQw4w9WgXcQ".toList)).1 rfl

/-! ## Title scraping fallback (fetch_video_title)

After the primary client fails, the code fetches the page and runs two
regexes over the HTML: an Open Graph meta pattern, else a case-insensitive
title-tag pattern whose capture is post-processed with
str.replace(" - YouTube", "") and str.strip().  The dot of both patterns
does not cross newlines, and the non-greedy capture stops at the first
closing delimiter. -/

/-- The literal prefix of the Open Graph title pattern. -/
def ogLit : List Char := ("<meta property=\"og:title\" content=\"".toList)

/-- Non-greedy capture up to the first double quote, failing at a newline. -/
def capOg : List Char → Option (List Char)
  | [] => none
  | c :: cs =>
    if c = '"' then some []
    else if c = '\n' then none
    else (capOg cs).map (fun l => c :: l)

/-- re.search for the Open Graph pattern: first start position at which the
literal matches and a capture closes. -/
def findOg : List Char → Option (List Char)
  | [] => none
  | c :: rest =>
    if ogLit.isPrefixOf (c :: rest) then
      match capOg ((c :: rest).drop ogLit.length) with
      | some cap => some cap
      | none => findOg rest
    else findOg rest

/-- Case-insensitive match of a lowercase literal at the front (re.IGNORECASE
over the ASCII pattern). -/
def matchCI (pat cs : List Char) : Bool :=
  decide ((cs.take pat.length).map Char.toLower = pat)

/-- Non-greedy capture up to the first case-insensitive closing title tag,
failing at a newline. -/
def capTitle : List Char → Option (List Char)
  | [] => none
  | c :: rest =>
    if matchCI ("</title>".toList) (c :: rest) then some []
    else if c = '\n' then none
    else (capTitle rest).map (fun l => c :: l)

/-- re.search for the title-tag pattern with re.IGNORECASE. -/
def findTitleTag : List Char → Option (List Char)
  | [] => none
  | c :: rest =>
    if matchCI ("<title>".toList) (c :: rest) then
      match capTitle ((c :: rest).drop 7) with
      | some cap => some cap
      | none => findTitleTag rest
    else findTitleTag rest

/-- Python str.replace(" - YouTube", ""): remove every non-overlapping
occurrence, scanning left to right.  The first arm spells out the ten
characters of the literal " - YouTube". -/
def removeYT : List Char → List Char
  | ' ' :: '-' :: ' ' :: 'Y' :: 'o' :: 'u' :: 'T' :: 'u' :: 'b' :: 'e' :: rest =>
    removeYT rest
  | c :: rest => c :: removeYT rest
  | [] => []

/-- The whitespace class of str.strip (ASCII part). -/
def pySpace (c : Char) : Bool :=
  c = ' ' || c = '\t' || c = '\n' || c = '\r' || c = '\x0b' || c = '\x0c'

/-- Python str.strip(): drop leading and trailing whitespace. -/
def pyStrip (cs : List Char) : List Char :=
  ((cs.dropWhile pySpace).reverse.dropWhile pySpace).reverse

/-- The HTML-scraping part of fetch_video_title: Open Graph content verbatim,
else the title-tag capture with every " - YouTube" removed and surrounding
whitespace stripped, else the generic failure. -/
def fallbackTitle (html : List Char) : Except (List Char) (List Char) :=
  match findOg html with
  | some t => .ok t
  | none =>
    match findTitleTag html with
    | some raw => .ok (pyStrip (removeYT raw))
    | none => .error ("Could not retrieve video title from HTML".toList)

/-- The post-processing C8 claims: strip exactly the literal suffix
" - YouTube" from the end and change nothing else. -/
def specSuffixStrip (cs : List Char) : List Char :=
  if (" - YouTube".toList).isSuffixOf cs then cs.take (cs.length - 10) else cs

/-- The HTML used to exercise the fallback path of fetch_video_title. -/
def sampleHtml : List Char := ("<html><title>A - YouTube B</title></html>".toList)

/-- Counterexample for C8: for a page with no Open Graph tag whose title-tag
content is A - YouTube B, the code removes the inner occurrence of
" - YouTube" and returns A B, while the claimed suffix-only strip would leave
the content unchanged. -/
theorem C8_counterexample :
    findOg sampleHtml = none ∧
    findTitleTag sampleHtml = some ("A - YouTube B".toList) ∧
    fallbackTitle sampleHtml = .ok ("A B".toList) ∧
    specSuffixStrip ("A - YouTube B".toList) = ("A - YouTube B".toList) ∧
    ("A B".toList) ≠ ("A - YouTube B".toList) := by
  refine ⟨rfl, rfl, rfl, rfl, by decide⟩

/-- C8 amended: on any response body with no Open Graph title match and a
title-tag match with capture raw, the fallback returns raw with every
occurrence of " - YouTube" removed and leading and trailing whitespace
stripped (not only a suffix occurrence, and not otherwise unaltered). -/
theorem C8_title_fallback (html raw : List Char)
    (hog : findOg html = none) (htit : findTitleTag html = some raw) :
    fallbackTitle html = .ok (pyStrip (removeYT raw)) := by
  simp [fallbackTitle, hog, htit]

/-- Witness for C8 at the sample page. -/
theorem C8_title_fallback_witness :
    (findOg sampleHtml = none ∧ findTitleTag sampleHtml = some ("A - YouTube B".toList)) ∧
    fallbackTitle sampleHtml = .ok (pyStrip (removeYT ("A - YouTube B".toList))) := by
  exact ⟨⟨rfl, rfl⟩, C8_title_fallback sampleHtml ("A - YouTube B".toList) rfl rfl⟩

/-! ## Transcript serialization (save_transcript)

A transcript entry carries text, start and duration in seconds.  The start
values only ever flow into two-decimal fixed-point formatting, so they are
modelled as rationals and the Python float formatting f-string \x7bstart:0.2f\x7d
as correct rounding to two decimals with ties to even, rendered as sign,
decimal integer digits, a dot, and two fractional digits. -/

structure TranscriptEntry where
  text : List Char
  start : ℚ
  duration : ℚ
  deriving DecidableEq

/-- Rounding to the nearest integer with ties to even. -/
def roundTE (q : ℚ) : ℤ :=
  if q - ⌊q⌋ < 1 / 2 then ⌊q⌋
  else if (1 : ℚ) / 2 < q - ⌊q⌋ then ⌊q⌋ + 1
  else if ⌊q⌋ % 2 = 0 then ⌊q⌋ else ⌊q⌋ + 1

/-- Decimal digits of a natural number, most significant first. -/
def renderNat (n : ℕ) : List Char :=
  if n = 0 then ['0'] else ((Nat.digits 10 n).reverse.map Nat.digitChar)

/-- Exactly two decimal digits of a number below one hundred. -/
def twoDigits (m : ℕ) : List Char := [Nat.digitChar (m / 10), Nat.digitChar (m % 10)]

/-- The two-decimal fixed-point rendering of the start value. -/
def format2 (q : ℚ) : List Char :=
  (if q < 0 then ['-'] else []) ++
    renderNat ((roundTE (100 * q)).natAbs / 100) ++
    '.' :: twoDigits ((roundTE (100 * q)).natAbs % 100)

/-- The start value rounded to two decimal places. -/
def round2 (q : ℚ) : ℚ := ((roundTE (100 * q) : ℤ) : ℚ) / 100

/-- One transcript body line, without its newline. -/
def transcriptLine (e : TranscriptEntry) : List Char :=
  '[' :: format2 e.start ++ ']' :: ' ' :: e.text

/-- save_transcript: title line, url line, blank line, then one line per
entry, each line terminated by a newline. -/
def save_transcript (transcript : List TranscriptEntry) (url title : List Char) :
    List Char :=
  ("Video Title: ".toList) ++ title ++ '\n' ::
    (("Video URL: ".toList) ++ url ++ '\n' :: '\n' ::
      transcript.foldr (fun e acc => transcriptLine e ++ '\n' :: acc) [])

/-! The parser the claim describes: split the file into lines, skip the three
header lines, and read each remaining bracketed line as a start value and a
text. -/

/-- Split at newlines; a trailing newline yields a final empty line. -/
def splitNl : List Char → List (List Char)
  | [] => [[]]
  | c :: cs =>
    if c = '\n' then [] :: splitNl cs
    else
      match splitNl cs with
      | l :: ls => (c :: l) :: ls
      | [] => [[c]]

def digitVal (c : Char) : Option ℕ :=
  if c.isDigit then some (c.toNat - 48) else none

def parseNatAux : ℕ → List Char → Option ℕ
  | a, [] => some a
  | a, c :: cs =>
    match digitVal c with
    | some d => parseNatAux (10 * a + d) cs
    | none => none

def parseNat (cs : List Char) : Option ℕ :=
  if cs.isEmpty then none else parseNatAux 0 cs

/-- Read a decimal number with an optional fractional part. -/
def parseDec (cs : List Char) : Option ℚ :=
  match cs.dropWhile (fun c => c ≠ '.') with
  | [] => (parseNat (cs.takeWhile (fun c => c ≠ '.'))).map (fun i => (i : ℚ))
  | _ :: fr =>
    match parseNat (cs.takeWhile (fun c => c ≠ '.')), parseNat fr with
    | some i, some f => some ((i : ℚ) + (f : ℚ) / (10 : ℚ) ^ fr.length)
    | _, _ => none

/-- Read a possibly negative decimal number. -/
def parseQ (cs : List Char) : Option ℚ :=
  if cs.head? = some '-' then (parseDec cs.tail).map (fun x => -x) else parseDec cs

/-- Read one transcript line: an opening bracket, the start value up to the
first closing bracket, the bracket-space separator, then the text. -/
def parseLine (cs : List Char) : Option (ℚ × List Char) :=
  match cs with
  | '[' :: rest =>
    (match rest.dropWhile (fun c => c ≠ ']') with
     | ']' :: ' ' :: text =>
       (parseQ (rest.takeWhile (fun c => c ≠ ']'))).map (fun q => (q, text))
     | _ => none)
  | _ => none

/-- Parse a saved transcript file back: skip the three header lines, read
every remaining well-formed line. -/
def parseTranscript (cs : List Char) : List (ℚ × List Char) :=
  ((splitNl cs).drop 3).filterMap parseLine

/-! Lemmas on the characters the formatter can emit. -/

theorem digitVal_digitChar (d : ℕ) (h : d < 10) :
    digitVal (Nat.digitChar d) = some d := by
  interval_cases d <;> rfl

theorem digitChar_isDigit (d : ℕ) (h : d < 10) : (Nat.digitChar d).isDigit = true := by
  interval_cases d <;> rfl

theorem renderNat_isDigit (n : ℕ) : ∀ c ∈ renderNat n, c.isDigit = true := by
  intro c hc
  unfold renderNat at hc
  by_cases h0 : n = 0
  · rw [if_pos h0, List.mem_singleton] at hc
    subst hc; rfl
  · rw [if_neg h0, List.mem_map] at hc
    obtain ⟨d, hd, hdc⟩ := hc
    rw [List.mem_reverse] at hd
    rw [← hdc]
    exact digitChar_isDigit d (Nat.digits_lt_base (by norm_num) hd)

theorem twoDigits_isDigit (m : ℕ) (h : m < 100) : ∀ c ∈ twoDigits m, c.isDigit = true := by
  intro c hc
  have h1 : m / 10 < 10 := by omega
  have h2 : m % 10 < 10 := Nat.mod_lt _ (by norm_num)
  rcases List.mem_cons.mp hc with hc | hc
  · rw [hc]; exact digitChar_isDigit _ h1
  · rw [List.mem_singleton] at hc
    rw [hc]; exact digitChar_isDigit _ h2

theorem format2_chars (q : ℚ) :
    ∀ c ∈ format2 q, c.isDigit = true ∨ c = '-' ∨ c = '.' := by
  intro c hc
  unfold format2 at hc
  rcases List.mem_append.mp hc with hc | hc
  · rcases List.mem_append.mp hc with hc | hc
    · by_cases hq : q < 0
      · rw [if_pos hq, List.mem_singleton] at hc
        exact Or.inr (Or.inl hc)
      · rw [if_neg hq] at hc
        exact absurd hc (List.not_mem_nil c)
    · exact Or.inl (renderNat_isDigit _ c hc)
  · rcases List.mem_cons.mp hc with hc | hc
    · exact Or.inr (Or.inr hc)
    · exact Or.inl (twoDigits_isDigit _ (Nat.mod_lt _ (by norm_num)) c hc)

theorem isDigit_ne (c x : Char) (h : c.isDigit = true) (hx : x.isDigit = false) :
    c ≠ x := by
  intro he
  rw [he, hx] at h
  exact Bool.false_ne_true h

theorem format2_no_nl (q : ℚ) : '\n' ∉ format2 q := by
  intro h
  rcases format2_chars q _ h with hd | h | h
  · exact absurd hd (by decide)
  · exact absurd h (by decide)
  · exact absurd h (by decide)

theorem format2_ne_rbracket (q : ℚ) : ∀ c ∈ format2 q, decide (c ≠ ']') = true := by
  intro c hc
  rcases format2_chars q c hc with hd | h | h
  · simpa using isDigit_ne c ']' hd (by decide)
  · subst h; decide
  · subst h; decide

/-! Lemmas relating splitNl to the written lines. -/

theorem splitNl_newline (b : List Char) : splitNl ('\n' :: b) = [] :: splitNl b := by
  simp [splitNl]

theorem splitNl_append (a b : List Char) (h : '\n' ∉ a) :
    splitNl (a ++ '\n' :: b) = a :: splitNl b := by
  induction a with
  | nil => simp [splitNl]
  | cons c a' ih =>
    have hc : ¬ c = '\n' := by
      intro hx
      subst hx
      exact h (List.mem_cons_self _ _)
    rw [List.cons_append]
    simp only [splitNl, if_neg hc]
    rw [ih (fun hx => h (List.mem_cons_of_mem c hx))]

theorem transcriptLine_no_nl (e : TranscriptEntry) (h : '\n' ∉ e.text) :
    '\n' ∉ transcriptLine e := by
  unfold transcriptLine
  intro hmem
  rcases List.mem_append.mp hmem with h1 | h1
  · rcases List.mem_cons.mp h1 with h2 | h2
    · exact absurd h2 (by decide)
    · exact format2_no_nl e.start h2
  · rcases List.mem_cons.mp h1 with h3 | h3
    · exact absurd h3 (by decide)
    · rcases List.mem_cons.mp h3 with h4 | h4
      · exact absurd h4 (by decide)
      · exact h h4

theorem splitNl_body (tr : List TranscriptEntry) (h : ∀ e ∈ tr, '\n' ∉ e.text) :
    splitNl (tr.foldr (fun e acc => transcriptLine e ++ '\n' :: acc) []) =
      tr.map transcriptLine ++ [[]] := by
  induction tr with
  | nil => simp [splitNl]
  | cons e rest ih =>
    rw [List.foldr_cons,
      splitNl_append _ _ (transcriptLine_no_nl e (h e (List.mem_cons_self e rest))),
      ih (fun x hx => h x (List.mem_cons_of_mem e hx))]
    simp

/-! takeWhile and dropWhile across an all-satisfying prefix. -/

theorem takeWhile_append_all {p : Char → Bool} (a b : List Char)
    (h : ∀ c ∈ a, p c = true) : (a ++ b).takeWhile p = a ++ b.takeWhile p := by
  induction a with
  | nil => simp
  | cons c a' ih =>
    rw [List.cons_append, List.takeWhile_cons, if_pos (h c (List.mem_cons_self c a')),
      ih (fun x hx => h x (List.mem_cons_of_mem c hx)), List.cons_append]

theorem dropWhile_append_all {p : Char → Bool} (a b : List Char)
    (h : ∀ c ∈ a, p c = true) : (a ++ b).dropWhile p = b.dropWhile p := by
  induction a with
  | nil => simp
  | cons c a' ih =>
    rw [List.cons_append, List.dropWhile_cons, if_pos (h c (List.mem_cons_self c a'))]
    exact ih (fun x hx => h x (List.mem_cons_of_mem c hx))

/-! Reading back the rendered numbers. -/

theorem parseNatAux_map (L : List ℕ) (hL : ∀ d ∈ L, d < 10) :
    ∀ a, parseNatAux a (L.map Nat.digitChar) =
      some (L.foldl (fun a d => 10 * a + d) a) := by
  induction L with
  | nil => intro a; rfl
  | cons d L ih =>
    intro a
    rw [List.map_cons, List.foldl_cons]
    simp only [parseNatAux, digitVal_digitChar d (hL d (List.mem_cons_self d L))]
    exact ih (fun x hx => hL x (List.mem_cons_of_mem d hx)) (10 * a + d)

theorem foldl_digits (L : List ℕ) :
    ∀ a, L.foldl (fun a d => 10 * a + d) a =
      a * 10 ^ L.length + Nat.ofDigits 10 L.reverse := by
  induction L with
  | nil => intro a; simp [Nat.ofDigits_nil]
  | cons d L ih =>
    intro a
    rw [List.foldl_cons, ih (10 * a + d), List.reverse_cons, Nat.ofDigits_append]
    simp only [Nat.ofDigits_singleton, List.length_reverse, List.length_cons, pow_succ]
    ring

theorem parseNat_of_ne_nil (cs : List Char) (h : cs ≠ []) :
    parseNat cs = parseNatAux 0 cs := by
  unfold parseNat
  rw [if_neg (by simpa using h)]

theorem renderNat_ne_nil (n : ℕ) : renderNat n ≠ [] := by
  unfold renderNat
  split_ifs with h
  · simp
  · simp [Nat.digits_ne_nil_iff_ne_zero.mpr h]

theorem parseNat_renderNat (n : ℕ) : parseNat (renderNat n) = some n := by
  by_cases h0 : n = 0
  · subst h0; rfl
  · rw [parseNat_of_ne_nil _ (renderNat_ne_nil n)]
    unfold renderNat
    rw [if_neg h0]
    rw [parseNatAux_map _
      (fun d hd => Nat.digits_lt_base (by norm_num) (List.mem_reverse.mp hd))]
    rw [foldl_digits]
    simp [Nat.ofDigits_digits]

theorem parseNat_twoDigits (m : ℕ) (h : m < 100) : parseNat (twoDigits m) = some m := by
  have h1 : m / 10 < 10 := by omega
  have h2 : m % 10 < 10 := Nat.mod_lt _ (by norm_num)
  unfold twoDigits
  rw [parseNat_of_ne_nil _ (by simp)]
  simp only [parseNatAux, digitVal_digitChar _ h1, digitVal_digitChar _ h2,
    Option.some_inj]
  omega

theorem parseDec_format (ipart m : ℕ) (hm : m < 100) :
    parseDec (renderNat ipart ++ '.' :: twoDigits m) =
      some ((ipart : ℚ) + (m : ℚ) / 100) := by
  have hall : ∀ c ∈ renderNat ipart, (fun c : Char => decide (c ≠ '.')) c = true := by
    intro c hc
    simpa using isDigit_ne c '.' (renderNat_isDigit ipart c hc) (by decide)
  unfold parseDec
  rw [dropWhile_append_all _ _ hall, takeWhile_append_all _ _ hall,
    List.dropWhile_cons, List.takeWhile_cons]
  rw [if_neg (by decide), if_neg (by decide), List.append_nil]
  simp only [parseNat_renderNat, parseNat_twoDigits m hm, Option.some_inj]
  have hlen : ('.' :: twoDigits m).length = 3 := rfl
  norm_num [twoDigits]

theorem roundTE_nonneg (x : ℚ) (hx : 0 ≤ x) : 0 ≤ roundTE x := by
  unfold roundTE
  have hf : (0 : ℤ) ≤ ⌊x⌋ := Int.floor_nonneg.mpr hx
  split_ifs <;> omega

theorem roundTE_nonpos (x : ℚ) (hx : x < 0) : roundTE x ≤ 0 := by
  unfold roundTE
  have hf : ⌊x⌋ ≤ 0 := Int.floor_nonpos (le_of_lt hx)
  by_cases hf0 : ⌊x⌋ = 0
  · have hr : x - (⌊x⌋ : ℚ) < 1 / 2 := by
      rw [hf0]
      push_cast
      linarith
    rw [if_pos hr]
    omega
  · split_ifs <;> omega

theorem nat_div100_q (a : ℕ) :
    ((a / 100 : ℕ) : ℚ) + ((a % 100 : ℕ) : ℚ) / 100 = (a : ℚ) / 100 := by
  field_simp
  norm_cast
  omega

theorem renderNat_head_not_dash (k : ℕ) : (renderNat k).head? ≠ some '-' := by
  rcases hR : renderNat k with - | ⟨c, cs⟩
  · exact absurd hR (renderNat_ne_nil k)
  · have hc : c.isDigit = true := by
      refine renderNat_isDigit k c ?_
      rw [hR]
      exact List.mem_cons_self _ _
    simp only [List.head?_cons, ne_eq, Option.some_inj]
    intro he
    subst he
    exact absurd hc (by decide)

theorem parseQ_format2 (q : ℚ) : parseQ (format2 q) = some (round2 q) := by
  have hmod : (roundTE (100 * q)).natAbs % 100 < 100 := Nat.mod_lt _ (by norm_num)
  by_cases hq : q < 0
  · have hform : format2 q =
        '-' :: (renderNat ((roundTE (100 * q)).natAbs / 100) ++
          '.' :: twoDigits ((roundTE (100 * q)).natAbs % 100)) := by
      unfold format2
      rw [if_pos hq]
      rfl
    rw [hform]
    unfold parseQ
    rw [List.head?_cons]
    rw [if_pos rfl, List.tail_cons, parseDec_format _ _ hmod, Option.map_some',
      Option.some_inj, nat_div100_q]
    have hnp : roundTE (100 * q) ≤ 0 :=
      roundTE_nonpos _ (mul_neg_of_pos_of_neg (by norm_num) hq)
    have hcast : (((roundTE (100 * q)).natAbs : ℕ) : ℚ) =
        -((roundTE (100 * q) : ℤ) : ℚ) := by
      rw [Int.cast_natAbs, abs_of_nonpos hnp, Int.cast_neg]
    rw [hcast]
    unfold round2
    ring
  · have hform : format2 q =
        renderNat ((roundTE (100 * q)).natAbs / 100) ++
          '.' :: twoDigits ((roundTE (100 * q)).natAbs % 100) := by
      unfold format2
      rw [if_neg hq, List.nil_append]
    have hd : ¬ ((renderNat ((roundTE (100 * q)).natAbs / 100) ++
        '.' :: twoDigits ((roundTE (100 * q)).natAbs % 100)).head? = some '-') := by
      rcases hR : renderNat ((roundTE (100 * q)).natAbs / 100) with - | ⟨c, cs⟩
      · exact absurd hR (renderNat_ne_nil _)
      · rw [List.cons_append, List.head?_cons]
        intro he
        have hce : c = '-' := Option.some_inj.mp he
        have hc : c.isDigit = true := by
          refine renderNat_isDigit ((roundTE (100 * q)).natAbs / 100) c ?_
          rw [hR]
          exact List.mem_cons_self _ _
        rw [hce] at hc
        exact absurd hc (by decide)
    rw [hform]
    unfold parseQ
    rw [if_neg hd, parseDec_format _ _ hmod, Option.some_inj, nat_div100_q]
    have hnn : 0 ≤ roundTE (100 * q) :=
      roundTE_nonneg _ (mul_nonneg (by norm_num) (le_of_not_lt hq))
    have hcast : (((roundTE (100 * q)).natAbs : ℕ) : ℚ) =
        ((roundTE (100 * q) : ℤ) : ℚ) := by
      rw [Int.cast_natAbs, abs_of_nonneg hnn]
    rw [hcast]
    rfl

theorem parseLine_line (e : TranscriptEntry) :
    parseLine (transcriptLine e) = some (round2 e.start, e.text) := by
  have hline : transcriptLine e =
      '[' :: (format2 e.start ++ ']' :: ' ' :: e.text) := by
    unfold transcriptLine
    rw [List.cons_append]
  rw [hline]
  simp only [parseLine]
  rw [dropWhile_append_all _ _ (format2_ne_rbracket e.start),
    takeWhile_append_all _ _ (format2_ne_rbracket e.start),
    List.dropWhile_cons, List.takeWhile_cons]
  rw [if_neg (by decide), if_neg (by decide), List.append_nil]
  simp only [parseQ_format2, Option.map_some']

theorem filterMap_all_some {α β : Type _} (g : α → Option β) (h : α → β) (l : List α)
    (H : ∀ e ∈ l, g e = some (h e)) : l.filterMap g = l.map h := by
  induction l with
  | nil => rfl
  | cons x xs ih =>
    rw [List.filterMap_cons, H x (List.mem_cons_self x xs), List.map_cons,
      ih (fun e he => H e (List.mem_cons_of_mem x he))]

/-- Counterexample for C4: a transcript entry whose text contains a newline
(and even a line-shaped fragment) is split across lines by save_transcript, so
parsing the file back does not recover the original (start, text) sequence. -/
theorem C4_counterexample :
    parseTranscript (save_transcript
        [⟨("a\n[9.99] b".toList), 0, 0⟩] ("u".toList) ("T".toList)) ≠
      [(⟨("a\n[9.99] b".toList), 0, 0⟩ : TranscriptEntry)].map
        (fun e => (round2 e.start, e.text)) := by
  with_unfolding_all decide

/-- C4 amended: for every transcript whose entry texts contain no newline and
every newline-free title and URL, parsing the saved file back (skipping the
three header lines and reading each bracketed line) recovers exactly the
ordered (start, text) pairs with each start rounded to two decimal places. -/
theorem C4_transcript_roundtrip (tr : List TranscriptEntry) (title url : List Char)
    (ht : '\n' ∉ title) (hu : '\n' ∉ url) (htx : ∀ e ∈ tr, '\n' ∉ e.text) :
    parseTranscript (save_transcript tr url title) =
      tr.map (fun e => (round2 e.start, e.text)) := by
  have hnA : '\n' ∉ ("Video Title: ".toList) ++ title := by
    intro h
    rcases List.mem_append.mp h with h | h
    · exact absurd h (by decide)
    · exact ht h
  have hnB : '\n' ∉ ("Video URL: ".toList) ++ url := by
    intro h
    rcases List.mem_append.mp h with h | h
    · exact absurd h (by decide)
    · exact hu h
  unfold parseTranscript save_transcript
  rw [splitNl_append _ _ hnA, splitNl_append _ _ hnB, splitNl_newline,
    splitNl_body tr htx,
    show ∀ (x y z : List Char) (L : List (List Char)),
      List.drop 3 (x :: y :: z :: L) = L from fun x y z L => rfl,
    List.filterMap_append, List.filterMap_map,
    filterMap_all_some (parseLine ∘ transcriptLine)
      (fun e => (round2 e.start, e.text)) tr (fun e _ => parseLine_line e),
    show List.filterMap parseLine [[]] = [] from rfl,
    List.append_nil]

/-- Witness for C4 at a concrete newline-free transcript. -/
theorem C4_transcript_roundtrip_witness :
    ('\n' ∉ ("T".toList) ∧ '\n' ∉ ("u".toList) ∧
      ∀ e ∈ [(⟨("hello world".toList), 5, 2⟩ : TranscriptEntry)], '\n' ∉ e.text) ∧
    parseTranscript (save_transcript
        [(⟨("hello world".toList), 5, 2⟩ : TranscriptEntry)] ("u".toList) ("T".toList)) =
      [(⟨("hello world".toList), 5, 2⟩ : TranscriptEntry)].map
        (fun e => (round2 e.start, e.text)) := by
  refine ⟨⟨by decide, by decide, by decide⟩, ?_⟩
  exact C4_transcript_roundtrip _ _ _ (by decide) (by decide) (by decide)

end Tools
